import Mathlib

/-!
Verification development for the goAirfocus client-side cache and
permission-resolution engine (`airfocus/client.go`).

The Go code is shallowly embedded: Go maps are modelled as association
lists or as functions built by left-to-right insertion (later insertions
shadow earlier ones, matching Go map assignment in a range loop); Go's
`for` walks over parent chains, which diverge on cyclic input, are
modelled with an explicit fuel parameter (the call sites instantiate the
fuel with `groups.length + 1`, which suffices for every acyclic chain);
fallible operations return `Except String`.  Time is a `Nat` (the unit is
nanoseconds, as in Go's `time.Duration`).
-/

namespace Airfocus

/-- Permission is a plain string in the source (`type Permission string`). -/
abbrev Permission := String

/-- Constant from client.go: `PermissionRead Permission = "read"`. -/
def PermissionRead : Permission := "read"

/-- Constant from client.go: `PermissionComment Permission = "comment"`. -/
def PermissionComment : Permission := "comment"

/-- Constant from client.go: `PermissionWrite Permission = "write"`. -/
def PermissionWrite : Permission := "write"

/-- Constant from client.go: `PermissionFull Permission = "full"`. -/
def PermissionFull : Permission := "full"

/-- Numeric rank of a permission string, embedding the Go map
`pOrder := map[Permission]int{read:1, comment:2, write:3, full:4}` used in
`getHighestPermission`; a Go map lookup of an absent key yields the zero
value 0, so every unrecognized string ranks 0. -/
def pOrder (p : Permission) : Nat :=
  if p = "read" then 1
  else if p = "comment" then 2
  else if p = "write" then 3
  else if p = "full" then 4
  else 0

/-- Embeds the closure `getHighestPermission` of `GetUserGroupAccess`
(client.go lines 1018-1029): keep the permission with the larger rank,
preferring the current one on ties. -/
def getHighestPermission (currentPerm newPerm : Permission) : Permission :=
  if pOrder newPerm > pOrder currentPerm then newPerm else currentPerm

/-- Order on permissions induced by `pOrder`; `permLE a b` reads
"a grants no more than b". -/
def permLE (a b : Permission) : Prop := pOrder a ≤ pOrder b

instance (a b : Permission) : Decidable (permLE a b) := by
  unfold permLE; infer_instance

/-- User record (client.go `User`); only the fields the modelled
operations consult are carried. -/
structure User where
  UserID : String
  FullName : String
  Email : String
  Role : String
deriving DecidableEq, Repr

/-- Workspace record (client.go `Workspace`); `permissions` models the
embedded `_embedded.permissions` map (userId → permission string) as an
association list, and only the fields the modelled operations consult are
carried. -/
structure Workspace where
  ID : String
  Name : String
  GroupID : String := ""
  GroupName : String := ""
  permissions : List (String × String) := []
  CurrentPermission : Permission := ""
deriving DecidableEq, Repr

/-- Workspace group record (client.go `WorkspaceGroup`); `permissions`
and `workspaces` model the `_embedded` block. -/
structure WorkspaceGroup where
  ID : String
  Name : String
  ParentID : String := ""
  Order : Int := 0
  DefaultPermission : String := ""
  permissions : List (String × String) := []
  workspaces : List Workspace := []
  CurrentPermission : Permission := ""
deriving DecidableEq, Repr

/-- Result row of `GetUserWorkspaces` (client.go `UserWorkspaceAccess`). -/
structure UserWorkspaceAccess where
  WorkspaceID : String
  WorkspaceName : String
  Permission : String
  GroupID : String := ""
  GroupName : String := ""
  GroupPath : String := ""
deriving DecidableEq, Repr

/-- Result row of `GetWorkspaceUsers` (client.go `WorkspaceUser`). -/
structure WorkspaceUser where
  UserID : String
  FullName : String
  Email : String
  Permission : String
deriving DecidableEq, Repr

/-- Lookup in an association list modelling a Go map read
`v, ok := m[k]`; Go maps hold each key at most once, so first-match
lookup is faithful. -/
def lookupStr : List (String × String) → String → Option String
  | [], _ => none
  | (k, v) :: rest, key => if key = k then some v else lookupStr rest key

/-- Insertion into a function-modelled Go map: `m[k] = v`. -/
def mapInsert {α : Type} (m : String → Option α) (k : String) (v : α) :
    String → Option α :=
  fun x => if x = k then some v else m x

/-- Embeds the `groupMap` construction of `GetUserGroupAccess`
(client.go line 1005-1006): `groupMap[group.ID] = group` in list order,
later assignments shadowing earlier ones. -/
def buildGroupMap (groups : List WorkspaceGroup) : String → Option WorkspaceGroup :=
  groups.foldl (fun m g => mapInsert m g.ID g) (fun _ => none)

/-- Embeds the `groupParentMap` construction (client.go lines 1007-1009
and 588-593): only groups with a non-empty `ParentID` are inserted, and a
Go lookup of an absent key yields the zero value `""`. -/
def buildGroupParentMap (groups : List WorkspaceGroup) : String → String :=
  groups.foldl
    (fun m g => if g.ParentID ≠ "" then (fun x => if x = g.ID then g.ParentID else m x) else m)
    (fun _ => "")

/-- Embeds the `groupNameMap`/`groupMap` (id → name) constructions of
`ListWorkspaces` and `GetUserWorkspaces` (client.go lines 364-367 and
582-585). -/
def buildGroupNameMap (groups : List WorkspaceGroup) : String → Option String :=
  groups.foldl (fun m g => mapInsert m g.ID g.Name) (fun _ => none)

/-- One iteration of the `calculateGroupPermission` loop body (client.go
lines 1038-1046): merge the group's explicit grant for the user (when
present in its grant map), then the group's default permission (when
non-empty), into the accumulator. -/
def mergeGroupPerm (userID : String) (g : WorkspaceGroup) (acc : Permission) : Permission :=
  let acc1 :=
    match lookupStr g.permissions userID with
    | some permStr => getHighestPermission acc permStr
    | none => acc
  if g.DefaultPermission ≠ "" then getHighestPermission acc1 g.DefaultPermission
  else acc1

/-- Loop of the closure `calculateGroupPermission` (client.go lines
1032-1054): walk up the parent chain, merging each visited group's
grants; stop on an empty id or an id absent from the group map.  `fuel`
bounds the walk so the function is total; the Go loop does not terminate
on a parent cycle, which the embedding cuts off when the fuel runs out. -/
def calculateGroupPermissionLoop (gm : String → Option WorkspaceGroup)
    (pm : String → String) (userID : String) :
    Nat → String → Permission → Permission
  | 0, _, acc => acc
  | fuel + 1, cur, acc =>
    if cur = "" then acc
    else
      match gm cur with
      | some g => calculateGroupPermissionLoop gm pm userID fuel (pm cur) (mergeGroupPerm userID g acc)
      | none => acc

/-- Embeds the closure `calculateGroupPermission` (client.go lines
1032-1054): the walk starts from the target group with the floor
`PermissionRead`. -/
def calculateGroupPermission (gm : String → Option WorkspaceGroup)
    (pm : String → String) (userID : String) (fuel : Nat) (groupID : String) : Permission :=
  calculateGroupPermissionLoop gm pm userID fuel groupID PermissionRead

/-- Chain of groups actually visited by the
`calculateGroupPermission` walk, with the same stopping rule and the same
fuel cut-off. -/
def groupChain (gm : String → Option WorkspaceGroup) (pm : String → String) :
    Nat → String → List WorkspaceGroup
  | 0, _ => []
  | fuel + 1, cur =>
    if cur = "" then []
    else
      match gm cur with
      | some g => g :: groupChain gm pm fuel (pm cur)
      | none => []

/-- Embeds the closure `calculateWorkspacePermission` (client.go lines
1057-1072): floor `read`, merged with the workspace's explicit grant for
the user and, when the workspace belongs to a group, that group's
effective permission. -/
def calculateWorkspacePermission (gm : String → Option WorkspaceGroup)
    (pm : String → String) (userID : String) (fuel : Nat) (workspace : Workspace) : Permission :=
  let e1 :=
    match lookupStr workspace.permissions userID with
    | some permStr => getHighestPermission PermissionRead permStr
    | none => PermissionRead
  if workspace.GroupID ≠ "" then
    getHighestPermission e1 (calculateGroupPermission gm pm userID fuel workspace.GroupID)
  else e1

/-- Group information attached to a workspace id by scanning the groups'
embedded workspace lists; embeds the `workspaceGroupMap` construction of
`ListWorkspaces` (client.go lines 369-380). -/
def buildWorkspaceGroupMap (groups : List WorkspaceGroup) :
    String → Option (String × String) :=
  groups.foldl
    (fun m g => g.workspaces.foldl (fun m ws => mapInsert m ws.ID (g.ID, g.Name)) m)
    (fun _ => none)

/-- Embeds the annotation loop of `ListWorkspaces` (client.go lines
385-408): a workspace that already carries a `GroupID` gets its
`GroupName` filled in from the group list when missing; a workspace
without a `GroupID` gets both fields from the embedded-workspace scan
when available. -/
def ListWorkspaces (cacheWorkspaces : List Workspace)
    (groups : List WorkspaceGroup) : List Workspace :=
  let groupNameMap := buildGroupNameMap groups
  let workspaceGroupMap := buildWorkspaceGroupMap groups
  cacheWorkspaces.map (fun ws =>
    if ws.GroupID ≠ "" then
      if ws.GroupName = "" then
        match groupNameMap ws.GroupID with
        | some groupName => { ws with GroupName := groupName }
        | none => ws
      else ws
    else
      match workspaceGroupMap ws.ID with
      | some groupInfo => { ws with GroupID := groupInfo.1, GroupName := groupInfo.2 }
      | none => ws)

/-- Names on the path from the root ancestor down to the given group,
embedding the walk of the closure `getFullGroupPath` of
`GetUserWorkspaces` (client.go lines 596-613): each visited group's name
is prepended while moving to the parent, and the walk breaks when the id
is empty or unknown.  `fuel` bounds the walk as in the permission
resolver. -/
def groupPathNames (nm : String → Option String) (pm : String → String) :
    Nat → String → List String
  | 0, _ => []
  | fuel + 1, cur =>
    if cur = "" then []
    else
      match nm cur with
      | some name => groupPathNames nm pm fuel (pm cur) ++ [name]
      | none => []

/-- Embeds the closure `getFullGroupPath` (client.go lines 596-613):
joins the collected names with `" > "`, returning `""` for an empty id. -/
def getFullGroupPath (nm : String → Option String) (pm : String → String)
    (fuel : Nat) (groupID : String) : String :=
  if groupID = "" then ""
  else String.intercalate " > " (groupPathNames nm pm fuel groupID)

/-- Embeds `GetUserWorkspaces` (client.go lines 563-637): over the
annotated workspace list, keep exactly the workspaces whose permission
map contains the user, carrying the explicit grant and the display
group path.  No sorting is applied (the sort existed only in an earlier
revision of the file). -/
def GetUserWorkspaces (cacheWorkspaces : List Workspace)
    (groups : List WorkspaceGroup) (userID : String) : List UserWorkspaceAccess :=
  let workspaces := ListWorkspaces cacheWorkspaces groups
  let groupMap := buildGroupNameMap groups
  let groupParentMap := buildGroupParentMap groups
  workspaces.filterMap (fun workspace =>
    match lookupStr workspace.permissions userID with
    | some permission =>
      some { WorkspaceID := workspace.ID
             WorkspaceName := workspace.Name
             Permission := permission
             GroupID := workspace.GroupID
             GroupName := workspace.GroupName
             GroupPath := getFullGroupPath groupMap groupParentMap
               (groups.length + 1) workspace.GroupID }
    | none => none)

/-- Embeds the `workspacesByGroupID` construction of `GetUserGroupAccess`
(client.go lines 1012-1015): workspaces are appended, in list order, to
the entry of their `GroupID`; a key is present exactly when at least one
workspace carries it. -/
def buildWorkspacesByGroupID (allWorkspaces : List Workspace) :
    String → Option (List Workspace) :=
  allWorkspaces.foldl
    (fun m ws => mapInsert m ws.GroupID ((m ws.GroupID).getD [] ++ [ws]))
    (fun _ => none)

/-- Embeds `GetUserGroupAccess` (client.go lines 986-1100): every group
whose computed permission is non-empty is returned with
`CurrentPermission` set and, when the group owns workspaces, those
workspaces with their own workspace-level effective permissions. -/
def GetUserGroupAccess (cacheWorkspaces : List Workspace)
    (groups : List WorkspaceGroup) (userID : String) : List WorkspaceGroup :=
  let allWorkspaces := ListWorkspaces cacheWorkspaces groups
  let groupMap := buildGroupMap groups
  let groupParentMap := buildGroupParentMap groups
  let workspacesByGroupID := buildWorkspacesByGroupID allWorkspaces
  let fuel := groups.length + 1
  groups.filterMap (fun group =>
    let groupPermission := calculateGroupPermission groupMap groupParentMap userID fuel group.ID
    if groupPermission ≠ "" then
      some { group with
             CurrentPermission := groupPermission
             workspaces :=
               match workspacesByGroupID group.ID with
               | some wsList =>
                 wsList.map (fun ws =>
                   { ws with CurrentPermission :=
                       calculateWorkspacePermission groupMap groupParentMap userID fuel ws })
               | none => group.workspaces }
    else none)

/-- Embeds the user map construction of `GetWorkspaceUsers` (client.go
lines 475-478): `userMap[u.UserID] = u` in list order. -/
def buildUserMap (users : List User) : String → Option User :=
  users.foldl (fun m u => mapInsert m u.UserID u) (fun _ => none)

/-- Embeds `GetWorkspaceUsers` (client.go lines 457-503) after the two
upstream reads have succeeded: an empty permission map short-circuits to
an empty list before the user list is consulted; otherwise each
permission entry is resolved against the user map, falling back to the
placeholder name `"Unknown User"` with an empty email when the user id is
unknown. -/
def GetWorkspaceUsers (workspace : Workspace) (allUsers : List User) :
    List WorkspaceUser :=
  if workspace.permissions = [] then []
  else
    let userMap := buildUserMap allUsers
    workspace.permissions.map (fun entry =>
      match userMap entry.1 with
      | some user =>
        { UserID := entry.1, FullName := user.FullName, Email := user.Email
          Permission := entry.2 }
      | none =>
        { UserID := entry.1, FullName := "Unknown User", Email := ""
          Permission := entry.2 })

/-- Cached field record; the claims never inspect field contents, so only
identity-relevant parts of `FieldWithWorkspaceNames` are carried. -/
structure FieldWithWorkspaceNames where
  ID : String
  Name : String
  WorkspaceNames : List String := []
deriving DecidableEq, Repr

/-- Snapshot cache state of the client (client.go lines 26-32): the four
collections plus the last-update timestamp (a `Nat`, in nanoseconds). -/
structure CacheState where
  users : List User := []
  workspaces : List Workspace := []
  fields : List FieldWithWorkspaceNames := []
  workspaceGroups : List WorkspaceGroup := []
  lastUpdate : Nat := 0
deriving DecidableEq, Repr

/-- Cache TTL, fixed at 5 minutes (client.go line 42), in nanoseconds. -/
def cacheTTL : Nat := 300000000000

/-- Outcomes of the four concurrent fetches of one refresh; each is the
decoded list or the error of the corresponding `fetch*` call. -/
structure FetchResults where
  users : Except String (List User)
  workspaces : Except String (List Workspace)
  fields : Except String (List FieldWithWorkspaceNames)
  workspaceGroups : Except String (List WorkspaceGroup)

/-- Effect of one fetch goroutine of `RefreshCacheIfNeeded` on its cache
field (client.go lines 739-784): on success the goroutine overwrites the
field with the fetched value before the error check runs; on failure it
leaves the field alone and reports on the error channel. -/
def applyFetch {α : Type} : Except String (List α) → List α → List α
  | .ok fetched, _ => fetched
  | .error _, old => old

/-- First error drained from the refresh error channel (client.go lines
788-795), wrapped as in the goroutines.  The channel order in Go is
completion order and hence unspecified; the claims only use whether an
error exists, so a fixed users/workspaces/fields/groups order is chosen. -/
def firstFetchError (fr : FetchResults) : Option String :=
  match fr.users with
  | .error e => some ("failed to fetch users: " ++ e)
  | .ok _ =>
    match fr.workspaces with
    | .error e => some ("failed to fetch workspaces: " ++ e)
    | .ok _ =>
      match fr.fields with
      | .error e => some ("failed to fetch fields: " ++ e)
      | .ok _ =>
        match fr.workspaceGroups with
        | .error e => some ("failed to fetch workspace groups: " ++ e)
        | .ok _ => none

/-- Joint effect of the refresh section of `RefreshCacheIfNeeded`
(client.go lines 734-798): the four goroutines each write their own cache
field on their own success (the final state is interleaving-independent
because the fields are distinct), then the error channel is drained; only
when it is empty is `lastUpdate` advanced. -/
def doRefresh (st : CacheState) (now : Nat) (fr : FetchResults) :
    CacheState × Option String :=
  let st1 : CacheState :=
    { st with
      users := applyFetch fr.users st.users
      workspaces := applyFetch fr.workspaces st.workspaces
      fields := applyFetch fr.fields st.fields
      workspaceGroups := applyFetch fr.workspaceGroups st.workspaceGroups }
  match firstFetchError fr with
  | some e => (st1, some e)
  | none => ({ st1 with lastUpdate := now }, none)

/-- Embeds `RefreshCacheIfNeeded` (client.go lines 716-799).
`stAtOuter`/`nowOuter` are the cache state and clock at the unlocked
staleness read; `stAtLock`/`nowInner` are the state and clock once the
write lock is held (in a single-threaded run the two states coincide; a
concurrent refresher that committed in between is reflected in
`stAtLock`).  The middle component counts how many sets of four upstream
fetches the call issues. -/
def RefreshCacheIfNeeded (stAtOuter : CacheState) (nowOuter : Nat)
    (stAtLock : CacheState) (nowInner : Nat) (fr : FetchResults) :
    CacheState × Nat × Option String :=
  if ¬ (nowOuter - stAtOuter.lastUpdate > cacheTTL) then (stAtLock, 0, none)
  else if nowInner - stAtLock.lastUpdate ≤ cacheTTL then (stAtLock, 0, none)
  else
    let r := doRefresh stAtLock nowInner fr
    (r.1, 1, r.2)

/-- Whether a fetch outcome is a failure. -/
def exceptFailed {α : Type} : Except String (List α) → Bool
  | .error _ => true
  | .ok _ => false

/-- Specification-side order on `GetUserWorkspaces` rows, written from the
spec's words for comparison with the code: primarily by group path
ascending with empty paths last, secondarily by workspace name
ascending. -/
def specUserWorkspaceOrder (a b : UserWorkspaceAccess) : Prop :=
  if a.GroupPath = b.GroupPath then a.WorkspaceName ≤ b.WorkspaceName
  else if a.GroupPath = "" then False
  else if b.GroupPath = "" then True
  else a.GroupPath < b.GroupPath

instance (a b : UserWorkspaceAccess) : Decidable (specUserWorkspaceOrder a b) := by
  unfold specUserWorkspaceOrder; infer_instance

/-- Specification-side sortedness of a `GetUserWorkspaces` result, written
from the spec's words: every pair of rows in order satisfies the spec's
sort key. -/
def specSortedUserWorkspaces (l : List UserWorkspaceAccess) : Prop :=
  l.Pairwise specUserWorkspaceOrder

instance (l : List UserWorkspaceAccess) : Decidable (specSortedUserWorkspaces l) := by
  unfold specSortedUserWorkspaces; infer_instance

/-- Concrete group for the C2 witness: grants the user full explicitly. -/
def c2FullGroup : WorkspaceGroup :=
  { ID := "F", Name := "F", permissions := [("u", "full")] }

/-- Concrete root group A of the spec's end-to-end scenario (default
permission `read`). -/
def c3GroupA : WorkspaceGroup := { ID := "A", Name := "A", DefaultPermission := "read" }

/-- Concrete child group B of the spec's end-to-end scenario (parent A,
default permission `write`). -/
def c3GroupB : WorkspaceGroup :=
  { ID := "B", Name := "B", ParentID := "A", DefaultPermission := "write" }

/-- Concrete workspace W of the spec's end-to-end scenario: member of
group B, no explicit grants. -/
def c3Workspace : Workspace := { ID := "W", Name := "W", GroupID := "B" }

/-- Concrete group for the C4 scenario: default permission `comment`. -/
def c4Group : WorkspaceGroup := { ID := "G", Name := "G", DefaultPermission := "comment" }

/-- Concrete ungrouped workspace W1 of the C4 scenario: explicit `write`
grant for user `u`. -/
def c4W1 : Workspace := { ID := "W1", Name := "W1", permissions := [("u", "write")] }

/-- Concrete grouped workspace W2 of the C4 scenario: member of the
`comment`-default group, no explicit grants. -/
def c4W2 : Workspace := { ID := "W2", Name := "W2", GroupID := "G" }

/-- Concrete group for the C5 counterexample. -/
def c5Group : WorkspaceGroup := { ID := "g", Name := "GName" }

/-- Concrete ungrouped workspace for the C5 counterexample; it precedes
the grouped one in the cached list. -/
def c5Ungrouped : Workspace := { ID := "wu", Name := "b", permissions := [("u", "read")] }

/-- Concrete grouped workspace for the C5 counterexample. -/
def c5Grouped : Workspace :=
  { ID := "wg", Name := "a", GroupID := "g", permissions := [("u", "read")] }

/-- Concrete pre-refresh cache state for the C1 counterexample. -/
def c1Pre : CacheState :=
  { users := [{ UserID := "u0", FullName := "Old", Email := "", Role := "admin" }]
    workspaces := [{ ID := "w0", Name := "w0" }]
    lastUpdate := 0 }

/-- Concrete fetch outcomes for the C1 counterexample: the users fetch
succeeds with a changed list while the workspaces fetch fails. -/
def c1Fetches : FetchResults :=
  { users := .ok [{ UserID := "u1", FullName := "New", Email := "", Role := "editor" }]
    workspaces := .error "upstream 500"
    fields := .ok []
    workspaceGroups := .ok [] }

/-- Concrete workspace for the C8 witness: its permission map names a
user id absent from the team user list. -/
def c8Workspace : Workspace :=
  { ID := "w", Name := "w", permissions := [("known", "read"), ("x", "write")] }

/-- Concrete team user list for the C8 witness. -/
def c8Users : List User :=
  [{ UserID := "known", FullName := "Known User", Email := "k@x", Role := "editor" }]

/-- Concrete workspace with an empty permission map for the C9 witness. -/
def c9Workspace : Workspace := { ID := "w9", Name := "w9", permissions := [] }

/-- Concrete team user list for the C9 witness. -/
def c9Users : List User :=
  [{ UserID := "someone", FullName := "Someone", Email := "s@x", Role := "admin" }]

/-- Concrete workspace for the C3 witness: member of group B with an
explicit `comment` grant for user `u`. -/
def c3WitnessWs : Workspace :=
  { ID := "V", Name := "V", GroupID := "B", permissions := [("u", "comment")] }

section Lemmas

/-- Every permission string ranks at most 4. -/
lemma pOrder_le_four (p : Permission) : pOrder p ≤ 4 := by
  unfold pOrder; split_ifs <;> omega

/-- Only the string `"full"` ranks 4. -/
lemma eq_full_of_pOrder_eq_four {p : Permission} (h : pOrder p = 4) : p = "full" := by
  unfold pOrder at h
  split_ifs at h <;> simp_all

/-- Merging never lowers the accumulated rank. -/
lemma pOrder_le_getHighest_left (c n : Permission) :
    pOrder c ≤ pOrder (getHighestPermission c n) := by
  unfold getHighestPermission; split_ifs with h <;> omega

/-- The merged permission ranks at least the new permission. -/
lemma pOrder_le_getHighest_right (c n : Permission) :
    pOrder n ≤ pOrder (getHighestPermission c n) := by
  unfold getHighestPermission; split_ifs with h <;> omega

/-- The merge returns one of its two arguments. -/
lemma getHighest_eq_or (c n : Permission) :
    getHighestPermission c n = c ∨ getHighestPermission c n = n := by
  unfold getHighestPermission; split_ifs <;> simp

/-- Merging in `"full"` yields rank 4. -/
lemma pOrder_getHighest_full (c : Permission) :
    pOrder (getHighestPermission c "full") = 4 := by
  unfold getHighestPermission
  split_ifs with h
  · rfl
  · have h4 : pOrder ("full" : String) = 4 := rfl
    have := pOrder_le_four c
    omega

/-- A group-merge step never lowers the accumulated rank. -/
lemma pOrder_le_mergeGroupPerm (userID : String) (g : WorkspaceGroup) (acc : Permission) :
    pOrder acc ≤ pOrder (mergeGroupPerm userID g acc) := by
  unfold mergeGroupPerm
  cases h : lookupStr g.permissions userID with
  | none =>
    simp only [h]
    split_ifs
    · exact pOrder_le_getHighest_left _ _
    · exact le_refl _
  | some p =>
    simp only [h]
    split_ifs
    · exact le_trans (pOrder_le_getHighest_left _ _) (pOrder_le_getHighest_left _ _)
    · exact pOrder_le_getHighest_left _ _

/-- A group that explicitly grants the user `full` or defaults to `full`
drives the accumulator to rank 4. -/
lemma mergeGroupPerm_full (userID : String) (g : WorkspaceGroup) (acc : Permission)
    (h : lookupStr g.permissions userID = some "full" ∨ g.DefaultPermission = "full") :
    pOrder (mergeGroupPerm userID g acc) = 4 := by
  unfold mergeGroupPerm
  rcases h with h | h
  · simp only [h]
    split_ifs with hd
    · have h1 := pOrder_le_getHighest_left (getHighestPermission acc "full") g.DefaultPermission
      have h2 := pOrder_getHighest_full acc
      have h3 := pOrder_le_four (getHighestPermission (getHighestPermission acc "full") g.DefaultPermission)
      omega
    · exact pOrder_getHighest_full acc
  · have hd : g.DefaultPermission ≠ "" := by rw [h]; decide
    simp only [hd, if_true]
    cases hl : lookupStr g.permissions userID with
    | none => simp only [hl]; rw [h]; exact pOrder_getHighest_full _
    | some p => simp only [hl]; rw [h]; exact pOrder_getHighest_full _

/-- The permission walk never lowers the accumulated rank. -/
lemma pOrder_le_loop (gm : String → Option WorkspaceGroup) (pm : String → String)
    (userID : String) :
    ∀ (fuel : Nat) (cur : String) (acc : Permission),
      pOrder acc ≤ pOrder (calculateGroupPermissionLoop gm pm userID fuel cur acc) := by
  intro fuel
  induction fuel with
  | zero => intro cur acc; simp [calculateGroupPermissionLoop]
  | succ n ih =>
    intro cur acc
    unfold calculateGroupPermissionLoop
    split_ifs with hc
    · exact le_refl _
    · cases hg : gm cur with
      | none => simp
      | some g =>
        simp only
        exact le_trans (pOrder_le_mergeGroupPerm userID g acc) (ih (pm cur) _)

/-- Once the accumulator ranks 4, the walk result ranks 4. -/
lemma loop_rank_four (gm : String → Option WorkspaceGroup) (pm : String → String)
    (userID : String) (fuel : Nat) (cur : String) (acc : Permission)
    (h : pOrder acc = 4) :
    pOrder (calculateGroupPermissionLoop gm pm userID fuel cur acc) = 4 := by
  have h1 := pOrder_le_loop gm pm userID fuel cur acc
  have h2 := pOrder_le_four (calculateGroupPermissionLoop gm pm userID fuel cur acc)
  omega

/-- If some visited group grants the user `full` (explicitly or by
default), the walk result ranks 4. -/
lemma loop_chain_full (gm : String → Option WorkspaceGroup) (pm : String → String)
    (userID : String) :
    ∀ (fuel : Nat) (cur : String) (acc : Permission) (g : WorkspaceGroup),
      g ∈ groupChain gm pm fuel cur →
      (lookupStr g.permissions userID = some "full" ∨ g.DefaultPermission = "full") →
      pOrder (calculateGroupPermissionLoop gm pm userID fuel cur acc) = 4 := by
  intro fuel
  induction fuel with
  | zero => intro cur acc g hmem; simp [groupChain] at hmem
  | succ n ih =>
    intro cur acc g hmem hfull
    unfold groupChain at hmem
    unfold calculateGroupPermissionLoop
    split_ifs with hc
    · simp [hc] at hmem
    · simp only [hc, if_false] at hmem
      cases hg : gm cur with
      | none => simp [hg] at hmem
      | some g0 =>
        simp only [hg] at hmem ⊢
        rcases List.mem_cons.mp hmem with heq | htail
        · subst heq
          exact loop_rank_four gm pm userID n (pm cur) _ (mergeGroupPerm_full userID g acc hfull)
        · exact ih (pm cur) (mergeGroupPerm userID g0 acc) g htail hfull

/-- Mapping a projection over a `filterMap` result is a sublist of the
projection of the original list, provided the projections agree on kept
elements; this captures that a filtering pass preserves relative order. -/
lemma map_filterMap_sublist {α β γ : Type} (f : α → Option β) (g : β → γ) (h : α → γ)
    (hfg : ∀ x b, f x = some b → g b = h x) :
    ∀ l : List α, ((l.filterMap f).map g).Sublist (l.map h) := by
  intro l
  induction l with
  | nil => simp
  | cons x xs ih =>
    cases hf : f x with
    | none =>
      rw [List.filterMap_cons, hf, List.map_cons]
      exact ih.cons (h x)
    | some b =>
      rw [List.filterMap_cons, hf, List.map_cons, List.map_cons, hfg x b hf]
      exact ih.cons₂ (h x)

end Lemmas

/-- C10: an unrecognized permission string (anything outside read,
comment, write, full) ranks strictly below `read` in the Go rank map and
therefore never displaces the accumulated permission in the merge step
`getHighestPermission`. -/
theorem c10_unrecognized_grants_inert (p : Permission)
    (h : p ∉ ["read", "comment", "write", "full"]) :
    pOrder p < pOrder PermissionRead ∧ ∀ c : Permission, getHighestPermission c p = c := by
  simp only [List.mem_cons, List.mem_singleton, not_or] at h
  obtain ⟨h1, h2, h3, h4⟩ := h
  have hp : pOrder p = 0 := by
    unfold pOrder
    simp [h1, h2, h3, h4]
  constructor
  · rw [hp]; decide
  · intro c
    unfold getHighestPermission
    rw [hp]
    simp

/-- Witness for C10 at the concrete unknown grant string `"admin"`. -/
theorem c10_witness :
    ("admin" : Permission) ∉ ["read", "comment", "write", "full"] ∧
    pOrder "admin" < pOrder PermissionRead ∧
    getHighestPermission PermissionWrite "admin" = PermissionWrite := by
  refine ⟨by decide, (c10_unrecognized_grants_inert "admin" (by decide)).1,
    (c10_unrecognized_grants_inert "admin" (by decide)).2 PermissionWrite⟩

/-- C2: the effective group permission computed by walking the parent
chain is always at least `read`, and it is exactly `full` whenever any
group actually visited on the chain (the target group included) grants
the user `full` explicitly or has default permission `full`. -/
theorem c2_group_effective_permission (gm : String → Option WorkspaceGroup)
    (pm : String → String) (userID : String) (fuel : Nat) (groupID : String) :
    permLE PermissionRead (calculateGroupPermission gm pm userID fuel groupID) ∧
    ∀ g ∈ groupChain gm pm fuel groupID,
      (lookupStr g.permissions userID = some PermissionFull ∨
        g.DefaultPermission = PermissionFull) →
      calculateGroupPermission gm pm userID fuel groupID = PermissionFull := by
  constructor
  · exact pOrder_le_loop gm pm userID fuel groupID PermissionRead
  · intro g hmem hfull
    exact eq_full_of_pOrder_eq_four
      (loop_chain_full gm pm userID fuel groupID PermissionRead g hmem hfull)

/-- Witness for C2 on a one-group chain whose group grants the user
`full` explicitly. -/
theorem c2_witness :
    c2FullGroup ∈ groupChain (buildGroupMap [c2FullGroup]) (buildGroupParentMap [c2FullGroup]) 2 "F" ∧
    permLE PermissionRead (calculateGroupPermission (buildGroupMap [c2FullGroup])
      (buildGroupParentMap [c2FullGroup]) "u" 2 "F") ∧
    calculateGroupPermission (buildGroupMap [c2FullGroup])
      (buildGroupParentMap [c2FullGroup]) "u" 2 "F" = PermissionFull := by
  refine ⟨by decide,
    (c2_group_effective_permission (buildGroupMap [c2FullGroup])
      (buildGroupParentMap [c2FullGroup]) "u" 2 "F").1,
    (c2_group_effective_permission (buildGroupMap [c2FullGroup])
      (buildGroupParentMap [c2FullGroup]) "u" 2 "F").2 c2FullGroup (by decide) (Or.inl (by decide))⟩

/-- C3: the effective workspace permission is the maximum, under the
permission rank, of the floor `read`, the workspace's explicit grant for
the user when present, and (when the workspace belongs to a group) the
group's effective permission: it dominates each contributor and equals
one of them; in the spec's end-to-end scenario (root group A with default
`read`, child group B with default `write`, workspace W in B with no
grants) every user's effective permission for W is `write`. -/
theorem c3_workspace_effective_permission (gm : String → Option WorkspaceGroup)
    (pm : String → String) (userID : String) (fuel : Nat) (workspace : Workspace) :
    permLE PermissionRead (calculateWorkspacePermission gm pm userID fuel workspace) ∧
    (∀ p, lookupStr workspace.permissions userID = some p →
      permLE p (calculateWorkspacePermission gm pm userID fuel workspace)) ∧
    (workspace.GroupID ≠ "" →
      permLE (calculateGroupPermission gm pm userID fuel workspace.GroupID)
        (calculateWorkspacePermission gm pm userID fuel workspace)) ∧
    (calculateWorkspacePermission gm pm userID fuel workspace = PermissionRead ∨
      (∃ p, lookupStr workspace.permissions userID = some p ∧
        calculateWorkspacePermission gm pm userID fuel workspace = p) ∨
      (workspace.GroupID ≠ "" ∧
        calculateWorkspacePermission gm pm userID fuel workspace =
          calculateGroupPermission gm pm userID fuel workspace.GroupID)) ∧
    (∀ anyUser : String,
      calculateWorkspacePermission (buildGroupMap [c3GroupA, c3GroupB])
        (buildGroupParentMap [c3GroupA, c3GroupB]) anyUser 3 c3Workspace = PermissionWrite) := by
  have scenario : ∀ anyUser : String,
      calculateWorkspacePermission (buildGroupMap [c3GroupA, c3GroupB])
        (buildGroupParentMap [c3GroupA, c3GroupB]) anyUser 3 c3Workspace = PermissionWrite :=
    fun _ => rfl
  by_cases hg : workspace.GroupID = ""
  · cases hl : lookupStr workspace.permissions userID with
    | none =>
      have he : calculateWorkspacePermission gm pm userID fuel workspace = PermissionRead := by
        simp [calculateWorkspacePermission, hl, hg]
      refine ⟨?_, ?_, ?_, ?_, scenario⟩
      · rw [he]; exact le_refl _
      · intro p hp; simp at hp
      · intro hne; exact absurd hg hne
      · left; exact he
    | some p =>
      have he : calculateWorkspacePermission gm pm userID fuel workspace =
          getHighestPermission PermissionRead p := by
        simp [calculateWorkspacePermission, hl, hg]
      refine ⟨?_, ?_, ?_, ?_, scenario⟩
      · rw [he]; exact pOrder_le_getHighest_left _ _
      · intro q hq; injection hq with hq; subst hq
        rw [he]; exact pOrder_le_getHighest_right _ _
      · intro hne; exact absurd hg hne
      · rcases getHighest_eq_or PermissionRead p with h | h
        · left; rw [he, h]
        · right; left; exact ⟨p, rfl, by rw [he, h]⟩
  · cases hl : lookupStr workspace.permissions userID with
    | none =>
      have he : calculateWorkspacePermission gm pm userID fuel workspace =
          getHighestPermission PermissionRead
            (calculateGroupPermission gm pm userID fuel workspace.GroupID) := by
        simp [calculateWorkspacePermission, hl, hg]
      refine ⟨?_, ?_, ?_, ?_, scenario⟩
      · rw [he]; exact pOrder_le_getHighest_left _ _
      · intro q hq; simp at hq
      · intro _; rw [he]; exact pOrder_le_getHighest_right _ _
      · rcases getHighest_eq_or PermissionRead
          (calculateGroupPermission gm pm userID fuel workspace.GroupID) with h | h
        · left; rw [he, h]
        · right; right; exact ⟨hg, by rw [he, h]⟩
    | some p =>
      have he : calculateWorkspacePermission gm pm userID fuel workspace =
          getHighestPermission (getHighestPermission PermissionRead p)
            (calculateGroupPermission gm pm userID fuel workspace.GroupID) := by
        simp [calculateWorkspacePermission, hl, hg]
      refine ⟨?_, ?_, ?_, ?_, scenario⟩
      · rw [he]; exact le_trans (pOrder_le_getHighest_left _ _) (pOrder_le_getHighest_left _ _)
      · intro q hq; injection hq with hq; subst hq
        rw [he]
        exact le_trans (pOrder_le_getHighest_right _ _) (pOrder_le_getHighest_left _ _)
      · intro _; rw [he]; exact pOrder_le_getHighest_right _ _
      · rcases getHighest_eq_or (getHighestPermission PermissionRead p)
          (calculateGroupPermission gm pm userID fuel workspace.GroupID) with h | h
        · rcases getHighest_eq_or PermissionRead p with h2 | h2
          · left; rw [he, h, h2]
          · right; left; exact ⟨p, rfl, by rw [he, h, h2]⟩
        · right; right; exact ⟨hg, by rw [he, h]⟩

/-- Witness for C3 at a workspace with an explicit `comment` grant inside
group B of the scenario hierarchy. -/
theorem c3_witness :
    lookupStr c3WitnessWs.permissions "u" = some "comment" ∧
    c3WitnessWs.GroupID ≠ "" ∧
    permLE "comment" (calculateWorkspacePermission (buildGroupMap [c3GroupA, c3GroupB])
      (buildGroupParentMap [c3GroupA, c3GroupB]) "u" 3 c3WitnessWs) ∧
    permLE (calculateGroupPermission (buildGroupMap [c3GroupA, c3GroupB])
        (buildGroupParentMap [c3GroupA, c3GroupB]) "u" 3 c3WitnessWs.GroupID)
      (calculateWorkspacePermission (buildGroupMap [c3GroupA, c3GroupB])
        (buildGroupParentMap [c3GroupA, c3GroupB]) "u" 3 c3WitnessWs) ∧
    calculateWorkspacePermission (buildGroupMap [c3GroupA, c3GroupB])
      (buildGroupParentMap [c3GroupA, c3GroupB]) "anyone" 3 c3Workspace = PermissionWrite := by
  have h := c3_workspace_effective_permission (buildGroupMap [c3GroupA, c3GroupB])
    (buildGroupParentMap [c3GroupA, c3GroupB]) "u" 3 c3WitnessWs
  exact ⟨by decide, by decide, h.2.1 "comment" (by decide), h.2.2.1 (by decide),
    h.2.2.2.2 "anyone"⟩

/-- C4: the two user views are distinct: `GetUserWorkspaces` returns
exactly the (annotated) workspaces whose explicit permission map contains
the user, each carrying that explicit grant; concretely, a user with an
explicit `write` grant on ungrouped W1 and only a `comment` group default
reaching grouped W2 sees only W1 (at `write`) there, while
`GetUserGroupAccess` lists W2's group with W2 at `comment`. -/
theorem c4_user_views_distinct (cacheWorkspaces : List Workspace)
    (groups : List WorkspaceGroup) (userID : String) :
    (∀ a ∈ GetUserWorkspaces cacheWorkspaces groups userID,
      ∃ ws ∈ ListWorkspaces cacheWorkspaces groups,
        ws.ID = a.WorkspaceID ∧ ws.Name = a.WorkspaceName ∧
        lookupStr ws.permissions userID = some a.Permission) ∧
    (∀ ws ∈ ListWorkspaces cacheWorkspaces groups, ∀ p,
      lookupStr ws.permissions userID = some p →
      ∃ a ∈ GetUserWorkspaces cacheWorkspaces groups userID,
        a.WorkspaceID = ws.ID ∧ a.Permission = p) ∧
    GetUserWorkspaces [c4W1, c4W2] [c4Group] "u" =
      [{ WorkspaceID := "W1", WorkspaceName := "W1", Permission := "write",
         GroupID := "", GroupName := "", GroupPath := "" }] ∧
    (∃ g ∈ GetUserGroupAccess [c4W1, c4W2] [c4Group] "u",
      g.ID = "G" ∧ g.CurrentPermission = "comment" ∧
      ∃ w ∈ g.workspaces, w.ID = "W2" ∧ w.CurrentPermission = "comment") := by
  refine ⟨?_, ?_, by decide, by decide⟩
  · intro a ha
    simp only [GetUserWorkspaces, List.mem_filterMap] at ha
    obtain ⟨ws, hmem, hf⟩ := ha
    cases hl : lookupStr ws.permissions userID with
    | none => rw [hl] at hf; simp at hf
    | some p =>
      rw [hl] at hf
      simp only [Option.some.injEq] at hf
      subst hf
      exact ⟨ws, hmem, rfl, rfl, hl⟩
  · intro ws hmem p hl
    simp only [GetUserWorkspaces, List.mem_filterMap]
    refine ⟨{ WorkspaceID := ws.ID, WorkspaceName := ws.Name, Permission := p,
              GroupID := ws.GroupID, GroupName := ws.GroupName,
              GroupPath := getFullGroupPath (buildGroupNameMap groups)
                (buildGroupParentMap groups) (groups.length + 1) ws.GroupID },
            ⟨ws, hmem, ?_⟩, rfl, rfl⟩
    rw [hl]

/-- Witness for C4 formed by applying the theorem to the scenario cache
and extracting the membership direction at W1. -/
theorem c4_witness :
    ∃ a ∈ GetUserWorkspaces [c4W1, c4W2] [c4Group] "u",
      a.WorkspaceID = "W1" ∧ a.Permission = "write" := by
  have h := c4_user_views_distinct [c4W1, c4W2] [c4Group] "u"
  have hmem : c4W1 ∈ ListWorkspaces [c4W1, c4W2] [c4Group] := by decide
  have := h.2.1 c4W1 hmem "write" (by decide)
  simpa using this

/-- C5 counterexample: with an ungrouped explicit-grant workspace cached
before a grouped one, the returned list places the empty group path
first, violating the claimed sort (group path ascending with empty paths
last, then workspace name); the current `GetUserWorkspaces` applies no
sort at all. -/
theorem c5_counterexample :
    ¬ specSortedUserWorkspaces (GetUserWorkspaces [c5Ungrouped, c5Grouped] [c5Group] "u") := by
  decide

/-- C5 amended: `GetUserWorkspaces` returns its rows in the order of the
cached (annotated) workspace list — the filtering pass preserves relative
order and performs no sorting. -/
theorem c5_amended_cache_order (cacheWorkspaces : List Workspace)
    (groups : List WorkspaceGroup) (userID : String) :
    ((GetUserWorkspaces cacheWorkspaces groups userID).map
        (fun a => a.WorkspaceID)).Sublist
      ((ListWorkspaces cacheWorkspaces groups).map (fun ws => ws.ID)) := by
  unfold GetUserWorkspaces
  apply map_filterMap_sublist
  intro ws a hf
  cases hl : lookupStr ws.permissions userID with
  | none => rw [hl] at hf; simp at hf
  | some p =>
    rw [hl] at hf
    simp only [Option.some.injEq] at hf
    rw [← hf]

/-- C1 counterexample: a refresh in which the workspaces fetch fails but
the users fetch succeeds returns the failure, yet the cached user list
has changed from its pre-refresh value. -/
theorem c1_counterexample :
    (RefreshCacheIfNeeded c1Pre (cacheTTL + 1) c1Pre (cacheTTL + 1) c1Fetches).2.2 ≠ none ∧
    (RefreshCacheIfNeeded c1Pre (cacheTTL + 1) c1Pre (cacheTTL + 1) c1Fetches).1.users ≠
      c1Pre.users := by
  decide

/-- C1 amended: when at least one of the four fetches fails, the failure
is returned and the last-update timestamp is unchanged (so the cache
stays stale), but each collection whose own fetch succeeded is
overwritten with the fetched value; only the collections whose fetches
failed keep their pre-refresh values. -/
theorem c1_partial_refresh (st : CacheState) (now : Nat) (fr : FetchResults)
    (h : (exceptFailed fr.users || exceptFailed fr.workspaces ||
          exceptFailed fr.fields || exceptFailed fr.workspaceGroups) = true) :
    (doRefresh st now fr).2 ≠ none ∧
    (doRefresh st now fr).1.lastUpdate = st.lastUpdate ∧
    (∀ e, fr.users = .error e → (doRefresh st now fr).1.users = st.users) ∧
    (∀ l, fr.users = .ok l → (doRefresh st now fr).1.users = l) ∧
    (∀ e, fr.workspaces = .error e → (doRefresh st now fr).1.workspaces = st.workspaces) ∧
    (∀ l, fr.workspaces = .ok l → (doRefresh st now fr).1.workspaces = l) ∧
    (∀ e, fr.fields = .error e → (doRefresh st now fr).1.fields = st.fields) ∧
    (∀ l, fr.fields = .ok l → (doRefresh st now fr).1.fields = l) ∧
    (∀ e, fr.workspaceGroups = .error e →
      (doRefresh st now fr).1.workspaceGroups = st.workspaceGroups) ∧
    (∀ l, fr.workspaceGroups = .ok l → (doRefresh st now fr).1.workspaceGroups = l) := by
  obtain ⟨frU, frW, frF, frG⟩ := fr
  cases frU <;> cases frW <;> cases frF <;> cases frG <;>
    simp_all [doRefresh, firstFetchError, applyFetch, exceptFailed]

/-- Witness for C1's amended statement at the counterexample inputs. -/
theorem c1_witness :
    (exceptFailed c1Fetches.users || exceptFailed c1Fetches.workspaces ||
      exceptFailed c1Fetches.fields || exceptFailed c1Fetches.workspaceGroups) = true ∧
    (doRefresh c1Pre 7 c1Fetches).2 ≠ none ∧
    (doRefresh c1Pre 7 c1Fetches).1.lastUpdate = c1Pre.lastUpdate ∧
    (doRefresh c1Pre 7 c1Fetches).1.workspaces = c1Pre.workspaces := by
  have h := c1_partial_refresh c1Pre 7 c1Fetches (by decide)
  exact ⟨by decide, h.1, h.2.1, h.2.2.2.2.1 "upstream 500" rfl⟩

/-- C7: a call whose unlocked staleness read is within the TTL performs
no fetch, succeeds and leaves the cache as it stands; a call that finds
the cache stale but, after taking the write lock, sees a timestamp within
the TTL (another refresher committed in between) also performs no fetch;
only a call that finds the cache stale at both checks issues exactly one
set of four fetches. -/
theorem c7_cache_ttl (stAtOuter stAtLock : CacheState) (nowOuter nowInner : Nat)
    (fr : FetchResults) :
    (nowOuter - stAtOuter.lastUpdate ≤ cacheTTL →
      RefreshCacheIfNeeded stAtOuter nowOuter stAtLock nowInner fr = (stAtLock, 0, none)) ∧
    (nowOuter - stAtOuter.lastUpdate > cacheTTL →
      nowInner - stAtLock.lastUpdate ≤ cacheTTL →
      RefreshCacheIfNeeded stAtOuter nowOuter stAtLock nowInner fr = (stAtLock, 0, none)) ∧
    (nowOuter - stAtOuter.lastUpdate > cacheTTL →
      nowInner - stAtLock.lastUpdate > cacheTTL →
      (RefreshCacheIfNeeded stAtOuter nowOuter stAtLock nowInner fr).2.1 = 1) := by
  refine ⟨?_, ?_, ?_⟩
  · intro h
    unfold RefreshCacheIfNeeded
    rw [if_pos (by omega)]
  · intro h1 h2
    unfold RefreshCacheIfNeeded
    rw [if_neg (by omega), if_pos h2]
  · intro h1 h2
    unfold RefreshCacheIfNeeded
    rw [if_neg (by omega), if_neg (by omega)]

/-- Witness for C7: a fresh-cache call is a no-op; a stale outer check
followed by a fresh locked check (a concurrent refresher committed) is a
no-op; a stale call issues exactly one fetch set. -/
theorem c7_witness :
    RefreshCacheIfNeeded c1Pre 5 c1Pre 5 c1Fetches = (c1Pre, 0, none) ∧
    RefreshCacheIfNeeded c1Pre (cacheTTL + 1)
      { c1Pre with lastUpdate := cacheTTL + 1 } (cacheTTL + 1) c1Fetches =
      ({ c1Pre with lastUpdate := cacheTTL + 1 }, 0, none) ∧
    (RefreshCacheIfNeeded c1Pre (cacheTTL + 1) c1Pre (cacheTTL + 1) c1Fetches).2.1 = 1 := by
  refine ⟨(c7_cache_ttl c1Pre c1Pre 5 5 c1Fetches).1 (by decide),
    (c7_cache_ttl c1Pre { c1Pre with lastUpdate := cacheTTL + 1 }
      (cacheTTL + 1) (cacheTTL + 1) c1Fetches).2.1 (by decide) (by decide),
    (c7_cache_ttl c1Pre c1Pre (cacheTTL + 1) (cacheTTL + 1) c1Fetches).2.2
      (by decide) (by decide)⟩

/-- C8: a permission-map entry whose user id has no match in the team
user list yields a `GetWorkspaceUsers` row with the placeholder full name
"Unknown User", an empty email and the mapped permission; the operation
does not fail on such entries. -/
theorem c8_unknown_user_entry (workspace : Workspace) (allUsers : List User)
    (userID permission : String)
    (hmem : (userID, permission) ∈ workspace.permissions)
    (hunknown : buildUserMap allUsers userID = none) :
    ({ UserID := userID, FullName := "Unknown User", Email := "",
       Permission := permission } : WorkspaceUser) ∈ GetWorkspaceUsers workspace allUsers := by
  unfold GetWorkspaceUsers
  split_ifs with hempty
  · rw [hempty] at hmem; simp at hmem
  · exact List.mem_map.mpr ⟨(userID, permission), hmem, by simp [hunknown]⟩

/-- Witness for C8 at a workspace granting `write` to the unknown id
`x`. -/
theorem c8_witness :
    ("x", "write") ∈ c8Workspace.permissions ∧
    buildUserMap c8Users "x" = none ∧
    ({ UserID := "x", FullName := "Unknown User", Email := "",
       Permission := "write" } : WorkspaceUser) ∈ GetWorkspaceUsers c8Workspace c8Users :=
  ⟨by decide, by decide,
    c8_unknown_user_entry c8Workspace c8Users "x" "write" (by decide) (by decide)⟩

/-- C9: a workspace whose embedded permission map is empty makes
`GetWorkspaceUsers` return the empty list, a success, and the result does
not depend on the team user list (the early return happens before the
user list is consulted). -/
theorem c9_empty_permissions (workspace : Workspace) (allUsers allUsers2 : List User)
    (h : workspace.permissions = []) :
    GetWorkspaceUsers workspace allUsers = [] ∧
    GetWorkspaceUsers workspace allUsers = GetWorkspaceUsers workspace allUsers2 := by
  constructor <;> simp [GetWorkspaceUsers, h]

/-- Witness for C9 at a concrete empty-permission workspace and two
different user lists. -/
theorem c9_witness :
    c9Workspace.permissions = [] ∧
    GetWorkspaceUsers c9Workspace c9Users = [] ∧
    GetWorkspaceUsers c9Workspace c9Users = GetWorkspaceUsers c9Workspace [] :=
  ⟨rfl, (c9_empty_permissions c9Workspace c9Users [] rfl).1,
    (c9_empty_permissions c9Workspace c9Users [] rfl).2⟩


end Airfocus
